import Mathlib

/-!
Verification of the controller utilities of machine-controller-manager
(`pkg/controller/controller_utils.go`): expectation tracking, UID-aware
deletion tracking, machine control (create/delete/patch), the deletion
ordering comparator, template hashing and the node-annotation updaters.

Shallow embedding conventions:
- the TTL store backing `ContExpectations` is modelled as a total function
  from keys to a read result (`found`/`absent`/`readError`); writes produce
  an updated function;
- time is an integer count of nanoseconds (Go `time.Duration` units);
- machine-size integers are `Int` (Go `int`/`int64` never overflow in the
  modelled paths); 32-bit hashing uses `Nat` with explicit `% 2^32`;
- remote calls are oracles (`Except String Unit` and similar) supplied as
  parameters; each control function additionally reports how many remote
  calls it performed and which events it emitted.
-/

/-- Model of `ControlleeExpectations` tracks controllee creates/deletes: add and del
counters (Go `int64`), the controller key, and the timestamp of the last
`SetExpectations` (nanoseconds). -/
structure ControlleeExpectations where
  add : Int
  del : Int
  key : String
  timestamp : Int
  deriving DecidableEq

/-- Result of `cache.Store.GetByKey` for the expectations store: the entry,
whether it exists, or a read error. -/
inductive GetByKeyResult where
  | found (exp : ControlleeExpectations)
  | absent
  | readError (e : String)
  deriving DecidableEq

/-- The backing `cache.Store` of a `ContExpectations`, as a read view. -/
abbrev ExpStore := String → GetByKeyResult

/-- Model of `ExpectationsTimeout = 5 * time.Minute`, in nanoseconds. -/
def ExpectationsTimeout : Int := 5 * 60 * 1000000000

/-- Model of `Fulfilled` returns true if this expectation has been fulfilled:
`add <= 0 && del <= 0`. -/
def ControlleeExpectations.Fulfilled (exp : ControlleeExpectations) : Bool :=
  decide (exp.add ≤ 0) && decide (exp.del ≤ 0)

/-- Model of `isExpired`: `clock.RealClock{}.Since(exp.timestamp) > ExpectationsTimeout`,
with the current instant passed explicitly. -/
def ControlleeExpectations.isExpired (exp : ControlleeExpectations) (now : Int) : Bool :=
  decide (now - exp.timestamp > ExpectationsTimeout)

/-- Model of `ContExpectations.GetExpectations`. The Go body declares `var err error`
and then shadows it inside the `if exp, exists, err := r.GetByKey(...)`
statement; the final `return nil, false, err` refers to the outer `err`,
which is still nil. The model keeps both variables to mirror this. -/
def ContExpectations.GetExpectations (r : ExpStore) (controllerKey : String) :
    Option ControlleeExpectations × Bool × Option String :=
  let err : Option String := none
  match r controllerKey with
  | GetByKeyResult.found exp => (some exp, true, none)
  | GetByKeyResult.absent => (none, false, err)
  | GetByKeyResult.readError _ => (none, false, err)

/-- Model of `ContExpectations.SatisfiedExpectations`: the `exists` branch returns
fulfilled/expired => true, otherwise false; the error-logging branch and the
never-recorded branch both fall through to the final `return true`. -/
def ContExpectations.SatisfiedExpectations (r : ExpStore) (now : Int) (controllerKey : String) : Bool :=
  match ContExpectations.GetExpectations r controllerKey with
  | (some exp, true, _) =>
      if exp.Fulfilled then true
      else if exp.isExpired now then true
      else false
  | (_, _, some _) => true
  | (_, _, none) => true

/-- Model of `ContExpectations.SetExpectations` builds a fresh entry carrying the
given counters, the key and the current time, and `Add`s it to the store,
replacing any entry under the same key (`cache.Store.Add` is an upsert).
`r.Add` cannot fail here because the argument always satisfies `ExpKeyFunc`,
so the returned `error` is dropped from the model. -/
def ContExpectations.SetExpectations (r : ExpStore) (controllerKey : String)
    (add del : Int) (now : Int) : ExpStore :=
  fun k =>
    if k = controllerKey then
      GetByKeyResult.found ⟨add, del, controllerKey, now⟩
    else r k

/-- Model of `ExpectCreations(key, adds) = SetExpectations(key, adds, 0)`. -/
def ContExpectations.ExpectCreations (r : ExpStore) (controllerKey : String)
    (adds : Int) (now : Int) : ExpStore :=
  ContExpectations.SetExpectations r controllerKey adds 0 now

/-- Model of `ExpectDeletions(key, dels) = SetExpectations(key, 0, dels)`. -/
def ContExpectations.ExpectDeletions (r : ExpStore) (controllerKey : String)
    (dels : Int) (now : Int) : ExpStore :=
  ContExpectations.SetExpectations r controllerKey 0 dels now

/-- Model of `LowerExpectations(key, add, del)`: if the entry exists, apply
`exp.Add(-add, -del)` in place (counters only; key and timestamp are
untouched); otherwise a no-op. -/
def ContExpectations.LowerExpectations (r : ExpStore) (controllerKey : String)
    (add del : Int) : ExpStore :=
  match ContExpectations.GetExpectations r controllerKey with
  | (some exp, true, none) =>
      fun k =>
        if k = controllerKey then
          GetByKeyResult.found ⟨exp.add - add, exp.del - del, exp.key, exp.timestamp⟩
        else r k
  | _ => r

/-- Model of `RaiseExpectations(key, add, del)`: `exp.Add(add, del)` when present. -/
def ContExpectations.RaiseExpectations (r : ExpStore) (controllerKey : String)
    (add del : Int) : ExpStore :=
  match ContExpectations.GetExpectations r controllerKey with
  | (some exp, true, none) =>
      fun k =>
        if k = controllerKey then
          GetByKeyResult.found ⟨exp.add + add, exp.del + del, exp.key, exp.timestamp⟩
        else r k
  | _ => r

/-- Model of `CreationObserved(key) = LowerExpectations(key, 1, 0)`. -/
def ContExpectations.CreationObserved (r : ExpStore) (controllerKey : String) : ExpStore :=
  ContExpectations.LowerExpectations r controllerKey 1 0

/-- Model of `DeletionObserved(key) = LowerExpectations(key, 0, 1)`. -/
def ContExpectations.DeletionObserved (r : ExpStore) (controllerKey : String) : ExpStore :=
  ContExpectations.LowerExpectations r controllerKey 0 1

/-- Model of `UIDTrackingContExpectations`: the wrapped `ContExpectations` store plus
the `uidStore` mapping each controller key to its `UIDSet` (a `sets.String`,
modelled as a `Finset String`). All methods run under `uidStoreLock`; the
model therefore presents them as sequential state transformers. -/
structure UIDTrackingState where
  exps : ExpStore
  uidStore : String → Option (Finset String)

/-- Model of `GetUIDs`: the set stored for the key, or Go `nil` (`none`) if absent. -/
def UIDTrackingContExpectations.GetUIDs (u : UIDTrackingState) (controllerKey : String) :
    Option (Finset String) :=
  u.uidStore controllerKey

/-- Model of `UIDTrackingContExpectations.ExpectDeletions(rcKey, deletedKeys)`:
builds `expectedUIDs` by inserting every element of `deletedKeys` into a
fresh string set, stores it under `rcKey` (replacing any previous set; a
non-empty previous set is only logged), then calls the wrapped store with
`ExpectDeletions(rcKey, expectedUIDs.Len())` - the cardinality of the set,
not the length of the slice. -/
def UIDTrackingContExpectations.ExpectDeletions (u : UIDTrackingState) (rcKey : String)
    (deletedKeys : List String) (now : Int) : UIDTrackingState :=
  let expectedUIDs : Finset String := deletedKeys.foldl (fun s k => insert k s) ∅
  { exps := ContExpectations.ExpectDeletions u.exps rcKey (expectedUIDs.card : Int) now,
    uidStore := fun k => if k = rcKey then some expectedUIDs else u.uidStore k }

/-- Model of `UIDTrackingContExpectations.DeletionObserved(rcKey, deleteKey)`: when
`deleteKey` is in the tracked set of `rcKey`, call the wrapped
`DeletionObserved(rcKey)` of the inner store and delete `deleteKey` from the set (the Go code
mutates the stored set in place); otherwise a no-op. -/
def UIDTrackingContExpectations.DeletionObserved (u : UIDTrackingState)
    (rcKey deleteKey : String) : UIDTrackingState :=
  match UIDTrackingContExpectations.GetUIDs u rcKey with
  | some uids =>
      if deleteKey ∈ uids then
        { exps := ContExpectations.DeletionObserved u.exps rcKey,
          uidStore := fun k => if k = rcKey then some (uids.erase deleteKey) else u.uidStore k }
      else u
  | none => u

/-- Event type strings of `k8s.io/api/core/v1`. -/
def EventTypeNormal : String := "Normal"

/-- Warning event type string. -/
def EventTypeWarning : String := "Warning"

/-- Event reason recorded when a machine create fails. -/
def FailedCreateMachineReason : String := "FailedCreate"

/-- Event reason recorded when a machine create succeeds. -/
def SuccessfulCreateMachineReason : String := "SuccessfulCreate"

/-- Event reason recorded when a machine delete fails. -/
def FailedDeleteMachineReason : String := "FailedDelete"

/-- Event reason recorded when a machine delete succeeds. -/
def SuccessfulDeleteMachineReason : String := "SuccessfulDelete"

/-- Model of `metav1.OwnerReference`, restricted to the fields `validateControllerRef`
inspects. The two flags are pointers in Go, hence `Option Bool`. -/
structure OwnerReference where
  APIVersion : String
  Kind : String
  Controller : Option Bool
  BlockOwnerDeletion : Option Bool
  deriving DecidableEq

/-- Go `ptr == nil || !*ptr` for a `*bool`. -/
def boolPtrNotTrue : Option Bool → Bool
  | some true => false
  | _ => true

/-- Model of `validateControllerRef`: the five checks, in source order, each with its
error message; `none` when the reference is valid. -/
def validateControllerRef : Option OwnerReference → Option String
  | none => some "controllerRef is nil"
  | some controllerRef =>
      if controllerRef.APIVersion.length = 0 then some "controllerRef has empty APIVersion"
      else if controllerRef.Kind.length = 0 then some "controllerRef has empty Kind"
      else if boolPtrNotTrue controllerRef.Controller then
        some "controllerRef.Controller is not set to true"
      else if boolPtrNotTrue controllerRef.BlockOwnerDeletion then
        some "controllerRef.BlockOwnerDeletion is not set"
      else none

/-- Model of `v1alpha1.MachineTemplateSpec`, restricted to the parts the modelled
functions read: the object-meta collections and the spec payload (the class
name stands in for the whole copied spec). -/
structure MachineTemplateSpec where
  Labels : List (String × String)
  Annotations : List (String × String)
  Finalizers : List String
  Class : String
  deriving DecidableEq

/-- Outcome of a machine-control call: the returned error (as its message),
the number of remote API calls performed, and the `(eventtype, reason)`
pairs recorded on the parent object. -/
structure ControlResult where
  err : Option String
  remoteCalls : Nat
  events : List (String × String)
  deriving DecidableEq

/-- Model of `RealMachineControl.createMachines`. `GetMachineFromTemplate` copies the
template collections onto the new machine and fails only when the parent
object has no `ObjectMeta` (`parentHasMeta`); then the empty-label check
runs before the remote `Create` (the oracle `remoteCreate`); a remote error
is recorded as a `FailedCreate` warning and returned unmodified; on success
a `SuccessfulCreate` event is recorded (the second `meta.Accessor` call is
on the same parent, so it fails only when `parentHasMeta` is false, which
the earlier check already excluded). -/
def RealMachineControl.createMachines (template : MachineTemplateSpec) (parentHasMeta : Bool)
    (_controllerRef : Option OwnerReference) (remoteCreate : Except String Unit) : ControlResult :=
  if ¬ parentHasMeta then ⟨some "parentObject does not have ObjectMeta", 0, []⟩
  else if template.Labels.isEmpty then ⟨some "unable to create machines, no labels", 0, []⟩
  else
    match remoteCreate with
    | Except.error e => ⟨some e, 1, [(EventTypeWarning, FailedCreateMachineReason)]⟩
    | Except.ok _ => ⟨none, 1, [(EventTypeNormal, SuccessfulCreateMachineReason)]⟩

/-- Model of `RealMachineControl.CreateMachines` calls `createMachines` with a nil
controller reference. -/
def RealMachineControl.CreateMachines (template : MachineTemplateSpec) (parentHasMeta : Bool)
    (remoteCreate : Except String Unit) : ControlResult :=
  RealMachineControl.createMachines template parentHasMeta none remoteCreate

/-- Model of `RealMachineControl.CreateMachinesWithControllerRef`: validate the
reference first; on failure return the validation error with no remote
call, otherwise proceed as `createMachines`. -/
def RealMachineControl.CreateMachinesWithControllerRef (template : MachineTemplateSpec)
    (parentHasMeta : Bool) (controllerRef : Option OwnerReference)
    (remoteCreate : Except String Unit) : ControlResult :=
  match validateControllerRef controllerRef with
  | some e => ⟨some e, 0, []⟩
  | none => RealMachineControl.createMachines template parentHasMeta controllerRef remoteCreate

/-- Model of `RealMachineControl.PatchMachine`: one remote `Patch`; its error (if
any) is returned directly, with no event. -/
def RealMachineControl.PatchMachine (remotePatch : Except String Unit) : ControlResult :=
  match remotePatch with
  | Except.error e => ⟨some e, 1, []⟩
  | Except.ok _ => ⟨none, 1, []⟩

/-- Model of `RealMachineControl.DeleteMachine`: `meta.Accessor` first (fails before
any remote call when the parent has no `ObjectMeta`); then the remote
`Delete`. A remote error is recorded as a `FailedDelete` warning and
returned wrapped as `unable to delete machines: <err>`; on success a
`SuccessfulDelete` event is recorded. -/
def RealMachineControl.DeleteMachine (parentHasMeta : Bool)
    (remoteDelete : Except String Unit) : ControlResult :=
  if ¬ parentHasMeta then ⟨some "object does not have ObjectMeta", 0, []⟩
  else
    match remoteDelete with
    | Except.error e =>
        ⟨some ("unable to delete machines: " ++ e), 1, [(EventTypeWarning, FailedDeleteMachineReason)]⟩
    | Except.ok _ => ⟨none, 1, [(EventTypeNormal, SuccessfulDeleteMachineReason)]⟩

/-- Model of `FakeMachineControl.createMachines`: identical control flow to the real
variant (`GetFakeMachineFromTemplate` differs only in client-side name
generation), except that no success event is recorded. -/
def FakeMachineControl.createMachines (template : MachineTemplateSpec) (parentHasMeta : Bool)
    (_controllerRef : Option OwnerReference) (remoteCreate : Except String Unit) : ControlResult :=
  if ¬ parentHasMeta then ⟨some "parentObject does not have ObjectMeta", 0, []⟩
  else if template.Labels.isEmpty then ⟨some "unable to create machines, no labels", 0, []⟩
  else
    match remoteCreate with
    | Except.error e => ⟨some e, 1, [(EventTypeWarning, FailedCreateMachineReason)]⟩
    | Except.ok _ => ⟨none, 1, []⟩

/-- Model of `FakeMachineControl.CreateMachines`. -/
def FakeMachineControl.CreateMachines (template : MachineTemplateSpec) (parentHasMeta : Bool)
    (remoteCreate : Except String Unit) : ControlResult :=
  FakeMachineControl.createMachines template parentHasMeta none remoteCreate

/-- Model of `FakeMachineControl.CreateMachinesWithControllerRef`. -/
def FakeMachineControl.CreateMachinesWithControllerRef (template : MachineTemplateSpec)
    (parentHasMeta : Bool) (controllerRef : Option OwnerReference)
    (remoteCreate : Except String Unit) : ControlResult :=
  match validateControllerRef controllerRef with
  | some e => ⟨some e, 0, []⟩
  | none => FakeMachineControl.createMachines template parentHasMeta controllerRef remoteCreate

/-- Model of `FakeMachineControl.PatchMachine`. -/
def FakeMachineControl.PatchMachine (remotePatch : Except String Unit) : ControlResult :=
  match remotePatch with
  | Except.error e => ⟨some e, 1, []⟩
  | Except.ok _ => ⟨none, 1, []⟩

/-- Model of `FakeMachineControl.DeleteMachine`: as the real variant but with no
success event. -/
def FakeMachineControl.DeleteMachine (parentHasMeta : Bool)
    (remoteDelete : Except String Unit) : ControlResult :=
  if ¬ parentHasMeta then ⟨some "object does not have ObjectMeta", 0, []⟩
  else
    match remoteDelete with
    | Except.error e =>
        ⟨some ("unable to delete machines: " ++ e), 1, [(EventTypeWarning, FailedDeleteMachineReason)]⟩
    | Except.ok _ => ⟨none, 1, []⟩

/-- Modelled from the spec: the priority annotation key
`machineutils.MachinePriority` (`pkg/util/provider/machineutils` is not
under `src/`); only its identity matters to the comparator. -/
def MachinePriority : String := "machinepriority.machine.sapcloud.io"

/-- Modelled from the spec: `v1alpha1.MachineTerminating` (the phase string
constants live outside `src/`; only their distinctness matters). -/
def MachineTerminating : String := "Terminating"

/-- Modelled from the spec: `v1alpha1.MachineFailed`. -/
def MachineFailed : String := "Failed"

/-- Modelled from the spec: `v1alpha1.MachineCrashLoopBackOff`. -/
def MachineCrashLoopBackOff : String := "CrashLoopBackOff"

/-- Modelled from the spec: `v1alpha1.MachineUnknown`. -/
def MachineUnknown : String := "Unknown"

/-- Modelled from the spec: `v1alpha1.MachinePending`. -/
def MachinePending : String := "Pending"

/-- Modelled from the spec: `v1alpha1.MachineAvailable`. -/
def MachineAvailable : String := "Available"

/-- Modelled from the spec: `v1alpha1.MachineRunning`. -/
def MachineRunning : String := "Running"

/-- Model of `v1alpha1.Machine`, restricted to the fields `ActiveMachines.Less`
reads. `Annotations` is a nil-able Go map; `Phase` is the string-typed
`Status.CurrentStatus.Phase`; `CreationTimestamp` in nanoseconds. -/
structure Machine where
  Name : String
  Annotations : Option (List (String × String))
  Phase : String
  CreationTimestamp : Int
  deriving DecidableEq

/-- Go map indexing `ann[k]`: the stored value, or the zero value `""`. -/
def annIndex (ann : List (String × String)) (k : String) : String :=
  match ann.find? (fun p => p.1 == k) with
  | some p => p.2
  | none => ""

/-- Digit run of `strconv.ParseInt`: all characters must be ASCII digits. -/
def parseDigits : List Char → Nat → Option Nat
  | [], acc => some acc
  | c :: rest, acc =>
      if '0' ≤ c ∧ c ≤ '9' then parseDigits rest (acc * 10 + (c.toNat - 48))
      else none

/-- Model of `strconv.Atoi` = `ParseInt(s, 10, 0)` on a 64-bit platform: optional
sign, at least one digit, all digits, and the value must fit in `int64`;
any violation yields an error (`none`). -/
def goAtoi (s : String) : Option Int :=
  match s.data with
  | [] => none
  | c :: rest =>
      let signed : Bool × List Char :=
        if c = '-' then (true, rest)
        else if c = '+' then (false, rest)
        else (false, c :: rest)
      match signed.2 with
      | [] => none
      | ds =>
          match parseDigits ds 0 with
          | none => none
          | some n =>
              let v : Int := if signed.1 then -(n : Int) else (n : Int)
              if v < -(2 ^ 63) ∨ v ≥ 2 ^ 63 then none else some v

/-- The priority taken for a machine by `ActiveMachines.Less`: the default 3
unless the machine has a non-nil annotation map whose `MachinePriority`
entry is non-empty and parses as an integer. -/
def machinePriorityOf (m : Machine) : Int :=
  match m.Annotations with
  | none => 3
  | some ann =>
      if annIndex ann MachinePriority = "" then 3
      else
        match goAtoi (annIndex ann MachinePriority) with
        | some num => num
        | none => 3

/-- The machine-phase priority map `m` of `ActiveMachines.Less`; a Go map
lookup of a phase outside the table yields the zero value 0. -/
def machinePhaseRank (phase : String) : Int :=
  if phase = MachineTerminating then 0
  else if phase = MachineFailed then 1
  else if phase = MachineCrashLoopBackOff then 2
  else if phase = MachineUnknown then 3
  else if phase = MachinePending then 4
  else if phase = MachineAvailable then 5
  else if phase = MachineRunning then 6
  else 0

/-- Model of `ActiveMachines.Less(i, j)` on the two machines `s[i]` and `s[j]`:
annotation priority first, then phase rank, then creation time; all ties
give `false`. -/
def ActiveMachines.Less (a b : Machine) : Bool :=
  let machineIPriority := machinePriorityOf a
  let machineJPriority := machinePriorityOf b
  if machineIPriority ≠ machineJPriority then
    decide (machineIPriority < machineJPriority)
  else if machinePhaseRank a.Phase ≠ machinePhaseRank b.Phase then
    decide (machinePhaseRank a.Phase < machinePhaseRank b.Phase)
  else if a.CreationTimestamp ≠ b.CreationTimestamp then
    decide (a.CreationTimestamp < b.CreationTimestamp)
  else false

/-- FNV-1a 32-bit prime (`hash/fnv`). -/
def fnvPrime : Nat := 16777619

/-- FNV-1a 32-bit offset basis (`hash/fnv`). -/
def fnvOffset : Nat := 2166136261

/-- One FNV-1a step: xor the byte in, multiply by the prime, mod 2^32. -/
def fnvStep (h b : Nat) : Nat := ((h ^^^ b) * fnvPrime) % 4294967296

/-- Model of `Write` a byte sequence into an FNV-1a 32 hasher with state `h`. -/
def fnvWrite (h : Nat) (bytes : List Nat) : Nat := bytes.foldl fnvStep h

/-- Bytes of a string, as Unicode code points (ASCII in all uses here). -/
def strBytes (s : String) : List Nat := s.data.map Char.toNat

/-- Keep the first entry for each key, dropping later duplicates (Go map
semantics for an association list). -/
def dedupKeys (l : List (String × String)) : List (String × String) :=
  l.foldl (fun acc p => if acc.any (fun q => q.1 == p.1) then acc else acc ++ [p]) []

/-- Lexicographic comparison of char lists by code point. -/
def charListLt : List Char → List Char → Bool
  | [], [] => false
  | [], _ :: _ => true
  | _ :: _, [] => false
  | a :: as, b :: bs =>
      if a.toNat < b.toNat then true
      else if b.toNat < a.toNat then false
      else charListLt as bs

/-- Lexicographic string comparison by code point (the standard string
order, written to reduce under kernel evaluation). -/
def strLt (a b : String) : Bool := charListLt a.data b.data

/-- Insert into a key-sorted association list. -/
def insertByKey (p : String × String) : List (String × String) → List (String × String)
  | [] => [p]
  | q :: rest => if strLt q.1 p.1 then q :: insertByKey p rest else p :: q :: rest

/-- Sort an association list by key (insertion sort). -/
def sortByKey : List (String × String) → List (String × String)
  | [] => []
  | p :: rest => insertByKey p (sortByKey rest)

/-- The canonical form of a Go map: entries deduplicated and sorted by key. -/
def canonicalMap (l : List (String × String)) : List (String × String) :=
  sortByKey (dedupKeys l)

/-- Serialize a map in canonical key order, with separator bytes. -/
def mapBytes (l : List (String × String)) : List Nat :=
  (canonicalMap l).foldr (fun p acc => strBytes p.1 ++ [0] ++ strBytes p.2 ++ [1] ++ acc) []

/-- Modelled from the spec: `hashutil.DeepHashObject` (`pkg/util/hash` is
not under `src/`) writes a canonical, key-sorted serialization of the
template into the hasher, so that structurally identical templates produce
identical byte streams regardless of map insertion order. -/
def deepHashTemplateBytes (template : MachineTemplateSpec) : List Nat :=
  mapBytes template.Labels ++ [2] ++ mapBytes template.Annotations ++ [3] ++
    template.Finalizers.foldr (fun f acc => strBytes f ++ [0] ++ acc) [] ++ [4] ++
    strBytes template.Class

/-- Go cast `uint32(c)` of an `int32` value: twos-complement, i.e. the
value mod 2^32 (nonnegative). -/
def uint32Cast (c : Int) : Nat := (c % 4294967296).toNat

/-- The 8-byte buffer of `ComputeHash`: `binary.LittleEndian.PutUint32`
fills the first four bytes with the little-endian encoding of `u`; the
remaining four stay zero and are written too. -/
def collisionCountBytes (u : Nat) : List Nat :=
  [u % 256, u / 256 % 256, u / 65536 % 256, u / 16777216 % 256, 0, 0, 0, 0]

/-- Model of `ComputeHash(template, collisionCount)`: hash the template with FNV-1a
32 via `DeepHashObject`, then, when a collision count is supplied, write
its 8-byte little-endian buffer into the hasher, and return `Sum32`. -/
def ComputeHash (template : MachineTemplateSpec) (collisionCount : Option Int) : Nat :=
  let h := fnvWrite fnvOffset (deepHashTemplateBytes template)
  match collisionCount with
  | none => h
  | some c => fnvWrite h (collisionCountBytes (uint32Cast c))

/-- A `v1.Node`, restricted to its nil-able annotation map. -/
structure Node where
  NodeAnn : Option (List (String × String))
  deriving DecidableEq

/-- Result of a remote `Nodes().Get`. -/
inductive NodeGetResult where
  | notFound
  | failure (e : String)
  | ok (node : Node)
  deriving DecidableEq

/-- Result of a remote `Nodes().Update`. -/
inductive NodeUpdateResult where
  | ok
  | conflict
  | failure (e : String)
  deriving DecidableEq

/-- A remote call issued by the annotation updaters: a cache-preferring get
(`ResourceVersion: "0"`), a quorum get, or an update. -/
inductive NodeCall where
  | getCached (name : String)
  | getFresh (name : String)
  | update (name : String)
  deriving DecidableEq

/-- Error classification used by `clientretry.RetryOnConflict`: only a
conflict error triggers another attempt. -/
inductive RetryErr where
  | conflictErr
  | otherErr (e : String)
  deriving DecidableEq

/-- Map lookup in an annotation list. -/
def annLookup (l : List (String × String)) (k : String) : Option String :=
  (l.find? (fun p => p.1 == k)).map (fun p => p.2)

/-- The annotations of a node, with Go nil-map reads giving no entries. -/
def Node.annList (n : Node) : List (String × String) := n.NodeAnn.getD []

/-- Modelled from the spec: `annotationsutils.AddOrUpdateAnnotation`
(`pkg/util/annotations` is not under `src/`) merges the requested
annotations into the node and reports whether anything changed; when
nothing changed no write is needed. -/
def addOrUpdateAnn (node : Node) (ann : List (String × String)) : Node × Bool :=
  let old := node.annList
  let merged := ann.foldl (fun acc p => acc.filter (fun q => q.1 != p.1) ++ [p]) old
  let updated := ann.any (fun p => annLookup old p.1 != some p.2)
  (⟨some merged⟩, updated)

/-- Modelled from the spec: `annotationsutils.RemoveAnnotation` removes the
requested annotation keys from the node and reports whether any were
present; absence of all keys means no write is needed. -/
def removeAnn (node : Node) (ann : List (String × String)) : Node × Bool :=
  let old := node.annList
  let remaining := old.filter (fun q => ¬ ann.any (fun p => p.1 == q.1))
  let updated := ann.any (fun p => (annLookup old p.1).isSome)
  (⟨some remaining⟩, updated)

/-- One attempt of the `AddOrUpdateAnnotationOnNode` retry closure: a
cached get on the first try and a quorum get afterwards; not-found is
success; a get error is returned; otherwise merge and, only when something
changed, issue the update (`UpdateNodeAnnotations` wraps any update error,
including a conflict, as `failed to create or update annotations ...`, so
the wrapped error is never classified as a conflict by the retry loop). -/
def addOrUpdateAttempt (merge : Node → List (String × String) → Node × Bool)
    (firstTry : Bool) (getRes : NodeGetResult) (updRes : NodeUpdateResult)
    (nodeName : String) (ann : List (String × String)) : Option RetryErr × List NodeCall :=
  let getCall := if firstTry then NodeCall.getCached nodeName else NodeCall.getFresh nodeName
  match getRes with
  | NodeGetResult.notFound => (none, [getCall])
  | NodeGetResult.failure e => (some (RetryErr.otherErr e), [getCall])
  | NodeGetResult.ok oldNode =>
      let step := merge oldNode ann
      if ¬ step.2 then (none, [getCall])
      else
        match updRes with
        | NodeUpdateResult.ok => (none, [getCall, NodeCall.update nodeName])
        | NodeUpdateResult.conflict =>
            (some (RetryErr.otherErr "failed to create or update annotations for node: conflict"),
              [getCall, NodeCall.update nodeName])
        | NodeUpdateResult.failure e =>
            (some (RetryErr.otherErr ("failed to create or update annotations for node: " ++ e)),
              [getCall, NodeCall.update nodeName])

/-- Model of `clientretry.RetryOnConflict(UpdateAnnotationBackoff, fn)`: run the
attempt up to `fuel` times, retrying only on a conflict error, carrying
the first-try flag, and accumulating the remote calls of every attempt;
an exhausted budget surfaces the conflict error. -/
def retryOnConflictLoop (fuel : Nat) (idx : Nat) (firstTry : Bool)
    (oracle : Nat → NodeGetResult × NodeUpdateResult)
    (attempt : Bool → NodeGetResult → NodeUpdateResult → Option RetryErr × List NodeCall) :
    Option RetryErr × List NodeCall :=
  match fuel with
  | 0 => (some RetryErr.conflictErr, [])
  | Nat.succ fuel =>
      let res := attempt firstTry (oracle idx).1 (oracle idx).2
      match res.1 with
      | none => (none, res.2)
      | some RetryErr.conflictErr =>
          let rest := retryOnConflictLoop fuel (idx + 1) false oracle attempt
          (rest.1, res.2 ++ rest.2)
      | some e => (some e, res.2)

/-- Model of `UpdateAnnotationBackoff.Steps`. -/
def UpdateAnnotationBackoffSteps : Nat := 5

/-- Model of `AddOrUpdateAnnotationOnNode(ctx, c, nodeName, annotations)`: only a
nil annotation map short-circuits (`if annotations == nil`); otherwise the
retry loop runs, its first get already being a remote call. The node name
is not checked. -/
def AddOrUpdateAnnotationOnNode (oracle : Nat → NodeGetResult × NodeUpdateResult)
    (nodeName : String) (ann : Option (List (String × String))) :
    Option RetryErr × List NodeCall :=
  match ann with
  | none => (none, [])
  | some a =>
      retryOnConflictLoop UpdateAnnotationBackoffSteps 0 true oracle
        (fun firstTry g u => addOrUpdateAttempt addOrUpdateAnn firstTry g u nodeName a)

/-- Model of `RemoveAnnotationsOffNode(ctx, c, nodeName, annotations)`: short-circuits
when the annotation map is nil or the node name is empty; otherwise runs
the same retry loop with the remove step. -/
def RemoveAnnotationsOffNode (oracle : Nat → NodeGetResult × NodeUpdateResult)
    (nodeName : String) (ann : Option (List (String × String))) :
    Option RetryErr × List NodeCall :=
  match ann with
  | none => (none, [])
  | some a =>
      if nodeName = "" then (none, [])
      else
        retryOnConflictLoop UpdateAnnotationBackoffSteps 0 true oracle
          (fun firstTry g u => addOrUpdateAttempt removeAnn firstTry g u nodeName a)

/-- C3 demonstration state: del expectation 2 and tracked set a, b under
key k. -/
def uidDemoState : UIDTrackingState :=
  ⟨fun k => if k = "k" then GetByKeyResult.found ⟨0, 2, "k", 0⟩ else GetByKeyResult.absent,
   fun k => if k = "k" then some ({"a", "b"} : Finset String) else none⟩

/-- Property of an owner reference that the claim calls malformed: nil, or
empty APIVersion or Kind, or a controller or block-owner-deletion flag that
is not set to true. -/
def badControllerRef (ref : Option OwnerReference) : Prop :=
  ref = none ∨ ∃ r, ref = some r ∧
    (r.APIVersion = "" ∨ r.Kind = "" ∨ r.Controller ≠ some true ∨
      r.BlockOwnerDeletion ≠ some true)

/-- Phases covered by the rank table of the claim. -/
def listedPhase (phase : String) : Prop :=
  phase = MachineTerminating ∨ phase = MachineFailed ∨ phase = MachineCrashLoopBackOff ∨
    phase = MachineUnknown ∨ phase = MachinePending ∨ phase = MachineAvailable ∨
    phase = MachineRunning

/-- Rank table exactly as the claim words it: terminating 0, failed 1,
crash-loop-backoff 2, unknown 3, pending 4, available 5, running 6; the
claim assigns no rank to any other phase (arbitrary sentinel 99 here). -/
def specPhaseRank (phase : String) : Int :=
  if phase = MachineTerminating then 0
  else if phase = MachineFailed then 1
  else if phase = MachineCrashLoopBackOff then 2
  else if phase = MachineUnknown then 3
  else if phase = MachinePending then 4
  else if phase = MachineAvailable then 5
  else if phase = MachineRunning then 6
  else 99

/-! ## Theorems -/

/-- C1: `SatisfiedExpectations(key)` returns true when the entry is absent,
fulfilled (add and del both at most 0), or expired (more than the 5-minute
timeout since its timestamp), and also when the backing store read returns
an error; it returns false exactly when an entry exists that is neither
fulfilled nor expired. -/
theorem satisfiedExpectations_spec (r : ExpStore) (now : Int) (key : String) :
    (r key = GetByKeyResult.absent →
      ContExpectations.SatisfiedExpectations r now key = true) ∧
    (∀ msg, r key = GetByKeyResult.readError msg →
      ContExpectations.SatisfiedExpectations r now key = true) ∧
    (∀ e, r key = GetByKeyResult.found e → e.Fulfilled = true →
      ContExpectations.SatisfiedExpectations r now key = true) ∧
    (∀ e, r key = GetByKeyResult.found e → e.isExpired now = true →
      ContExpectations.SatisfiedExpectations r now key = true) ∧
    (ContExpectations.SatisfiedExpectations r now key = false ↔
      ∃ e, r key = GetByKeyResult.found e ∧ e.Fulfilled = false ∧ e.isExpired now = false) := by
  unfold ContExpectations.SatisfiedExpectations ContExpectations.GetExpectations
  rcases hk : r key with e | _ | msg
  · by_cases hf : e.Fulfilled <;> by_cases he : e.isExpired now <;> simp [hf, he]
  · simp
  · simp

/-- C1 witness: an absent entry is reported satisfied. -/
theorem satisfiedExpectations_spec_witness :
    ContExpectations.SatisfiedExpectations (fun _ => GetByKeyResult.absent) 0 "k" = true :=
  (satisfiedExpectations_spec (fun _ => GetByKeyResult.absent) 0 "k").1 rfl

/-- C2: `SetExpectations` (and hence `ExpectCreations`/`ExpectDeletions`)
replaces the whole entry for a key with the given counters and the current
time, leaving other keys untouched; in particular `ExpectDeletions(key, 3)`
followed by `ExpectCreations(key, 1)` leaves add = 1, del = 0 and the
second timestamp. -/
theorem setExpectations_overwrites (r : ExpStore) (key : String) (add del t1 t2 : Int) :
    (ContExpectations.SetExpectations r key add del t1) key
        = GetByKeyResult.found ⟨add, del, key, t1⟩ ∧
    (∀ k, k ≠ key → (ContExpectations.SetExpectations r key add del t1) k = r k) ∧
    (ContExpectations.ExpectCreations (ContExpectations.ExpectDeletions r key 3 t1) key 1 t2) key
        = GetByKeyResult.found ⟨1, 0, key, t2⟩ := by
  refine ⟨?_, ?_, ?_⟩
  · simp [ContExpectations.SetExpectations]
  · intro k hk
    simp [ContExpectations.SetExpectations, hk]
  · simp [ContExpectations.ExpectCreations, ContExpectations.ExpectDeletions,
      ContExpectations.SetExpectations]

/-- C2 witness: at a concrete store and key, other keys are untouched and
the overwrite sequence ends with add = 1, del = 0 and the new timestamp. -/
theorem setExpectations_overwrites_witness :
    (ContExpectations.SetExpectations (fun _ => GetByKeyResult.absent) "k" 2 5 7) "other"
        = GetByKeyResult.absent ∧
    (ContExpectations.ExpectCreations
        (ContExpectations.ExpectDeletions (fun _ => GetByKeyResult.absent) "k" 3 7) "k" 1 20) "k"
        = GetByKeyResult.found ⟨1, 0, "k", 20⟩ :=
  ⟨(setExpectations_overwrites (fun _ => GetByKeyResult.absent) "k" 2 5 7 20).2.1 "other"
      (by decide),
   (setExpectations_overwrites (fun _ => GetByKeyResult.absent) "k" 2 5 7 20).2.2⟩

/-- C10: `GetExpectations` never returns a non-nil error (the inner `err`
of its `if`-initializer shadows the returned outer `err`), a store read
error yields the same result as an absent entry, and consequently the
error-logging branch of `SatisfiedExpectations` (guarded by a non-nil
error) is unreachable and a read error still reports satisfied. -/
theorem getExpectations_swallows_error (r : ExpStore) (key : String) (now : Int) :
    (ContExpectations.GetExpectations r key).2.2 = none ∧
    (∀ msg, r key = GetByKeyResult.readError msg →
      ContExpectations.GetExpectations r key = (none, false, none)) ∧
    (r key = GetByKeyResult.absent →
      ContExpectations.GetExpectations r key = (none, false, none)) ∧
    (∀ msg, r key = GetByKeyResult.readError msg →
      ContExpectations.SatisfiedExpectations r now key = true) := by
  unfold ContExpectations.SatisfiedExpectations ContExpectations.GetExpectations
  rcases hk : r key with e | _ | msg <;> simp

/-- C10 witness: a concrete read error comes back as a nil-error absence,
and the key is reported satisfied. -/
theorem getExpectations_swallows_error_witness :
    ContExpectations.GetExpectations (fun _ => GetByKeyResult.readError "disk") "k"
        = (none, false, none) ∧
    ContExpectations.SatisfiedExpectations (fun _ => GetByKeyResult.readError "disk") 0 "k"
        = true :=
  ⟨(getExpectations_swallows_error (fun _ => GetByKeyResult.readError "disk") "k" 0).2.1
      "disk" rfl,
   (getExpectations_swallows_error (fun _ => GetByKeyResult.readError "disk") "k" 0).2.2.2
      "disk" rfl⟩

/-- C3: `UIDTrackingContExpectations.DeletionObserved(key, identity)`
decrements the del counter of the key by one and removes the identity from the
tracked set exactly when the identity is currently a member; a second call
with the same identity is a no-op, as is any call when the identity is not
tracked or no set exists for the key. -/
theorem uidTracking_deletionObserved_once (u : UIDTrackingState) (rcKey deleteKey : String)
    (e : ControlleeExpectations) (uids : Finset String)
    (hexp : u.exps rcKey = GetByKeyResult.found e)
    (hset : u.uidStore rcKey = some uids) (hmem : deleteKey ∈ uids) :
    (UIDTrackingContExpectations.DeletionObserved u rcKey deleteKey).exps rcKey
        = GetByKeyResult.found ⟨e.add, e.del - 1, e.key, e.timestamp⟩ ∧
    (UIDTrackingContExpectations.DeletionObserved u rcKey deleteKey).uidStore rcKey
        = some (uids.erase deleteKey) ∧
    UIDTrackingContExpectations.DeletionObserved
        (UIDTrackingContExpectations.DeletionObserved u rcKey deleteKey) rcKey deleteKey
      = UIDTrackingContExpectations.DeletionObserved u rcKey deleteKey ∧
    (∀ v : UIDTrackingState, ∀ s : Finset String, v.uidStore rcKey = some s →
      deleteKey ∉ s →
      UIDTrackingContExpectations.DeletionObserved v rcKey deleteKey = v) ∧
    (∀ v : UIDTrackingState, v.uidStore rcKey = none →
      UIDTrackingContExpectations.DeletionObserved v rcKey deleteKey = v) := by
  have hnoop : ∀ v : UIDTrackingState, ∀ s : Finset String, v.uidStore rcKey = some s →
      deleteKey ∉ s →
      UIDTrackingContExpectations.DeletionObserved v rcKey deleteKey = v := by
    intro v s hv hns
    unfold UIDTrackingContExpectations.DeletionObserved UIDTrackingContExpectations.GetUIDs
    simp [hv, hns]
  have hstep : UIDTrackingContExpectations.DeletionObserved u rcKey deleteKey
      = { exps := ContExpectations.DeletionObserved u.exps rcKey,
          uidStore := fun k => if k = rcKey then some (uids.erase deleteKey)
            else u.uidStore k } := by
    unfold UIDTrackingContExpectations.DeletionObserved UIDTrackingContExpectations.GetUIDs
    simp [hset, hmem]
  refine ⟨?_, ?_, ?_, hnoop, ?_⟩
  · rw [hstep]
    unfold ContExpectations.DeletionObserved ContExpectations.LowerExpectations
      ContExpectations.GetExpectations
    simp [hexp]
  · rw [hstep]
    simp
  · refine hnoop _ (uids.erase deleteKey) ?_ (Finset.not_mem_erase _ _)
    rw [hstep]
    simp
  · intro v hv
    unfold UIDTrackingContExpectations.DeletionObserved UIDTrackingContExpectations.GetUIDs
    simp [hv]

/-- C3 witness: observing deletion of a tracked identity drops del from 2
to 1 and erases the identity. -/
theorem uidTracking_deletionObserved_once_witness :
    (UIDTrackingContExpectations.DeletionObserved uidDemoState "k" "a").exps "k"
        = GetByKeyResult.found ⟨(0 : Int), (2 : Int) - 1, "k", (0 : Int)⟩ ∧
    (UIDTrackingContExpectations.DeletionObserved uidDemoState "k" "a").uidStore "k"
        = some (({"a", "b"} : Finset String).erase "a") :=
  ⟨(uidTracking_deletionObserved_once uidDemoState "k" "a" ⟨0, 2, "k", 0⟩ {"a", "b"}
      (by decide) (by decide) (by decide)).1,
   (uidTracking_deletionObserved_once uidDemoState "k" "a" ⟨0, 2, "k", 0⟩ {"a", "b"}
      (by decide) (by decide) (by decide)).2.1⟩

/-- Folding set insertion over a list starting from s yields the union of s
with the set of elements of the list. -/
theorem foldl_insert_eq_union (l : List String) (s : Finset String) :
    l.foldl (fun acc k => insert k acc) s = s ∪ l.toFinset := by
  induction l generalizing s with
  | nil => simp
  | cons a l ih =>
      simp only [List.foldl_cons, List.toFinset_cons, ih]
      rw [Finset.union_insert, Finset.insert_union]

/-- C4 counterexample: with the duplicate identity list a, a the wrapped
del counter of the wrapped store is set to 1, the cardinality of the deduplicated set,
not to the list length 2 as the claim states. -/
theorem uidTracking_expectDeletions_len_counterexample :
    (UIDTrackingContExpectations.ExpectDeletions
        ⟨fun _ => GetByKeyResult.absent, fun _ => none⟩ "k" ["a", "a"] 0).exps "k"
      = GetByKeyResult.found ⟨0, 1, "k", 0⟩ ∧
    (["a", "a"] : List String).length = 2 ∧ (1 : Int) ≠ 2 := by
  refine ⟨by decide, rfl, by decide⟩

/-- C4 (amended): `UIDTrackingContExpectations.ExpectDeletions(key,
identities)` replaces the tracked set for the key with the set of the
listed identities and calls the wrapped `ExpectDeletions(key, n)` with n
the cardinality of that deduplicated set (equal to len(identities) exactly
when the list has no duplicates); other keys are untouched. -/
theorem uidTracking_expectDeletions_dedups (u : UIDTrackingState) (rcKey : String)
    (deletedKeys : List String) (now : Int) :
    (UIDTrackingContExpectations.ExpectDeletions u rcKey deletedKeys now).uidStore rcKey
        = some deletedKeys.toFinset ∧
    (UIDTrackingContExpectations.ExpectDeletions u rcKey deletedKeys now).exps rcKey
        = GetByKeyResult.found ⟨0, (deletedKeys.toFinset.card : Int), rcKey, now⟩ ∧
    (∀ k, k ≠ rcKey →
      (UIDTrackingContExpectations.ExpectDeletions u rcKey deletedKeys now).uidStore k
        = u.uidStore k) := by
  have hfold : deletedKeys.foldl (fun acc k => insert k acc) ∅ = deletedKeys.toFinset := by
    rw [foldl_insert_eq_union]
    simp
  unfold UIDTrackingContExpectations.ExpectDeletions
  refine ⟨by simp [hfold], ?_, ?_⟩
  · simp only [hfold]
    simp [ContExpectations.ExpectDeletions, ContExpectations.SetExpectations]
  · intro k hk
    simp [hk]

/-- C4 witness: with distinct identities a, b the tracked set is a, b and
the wrapped del counter is 2. -/
theorem uidTracking_expectDeletions_dedups_witness :
    (UIDTrackingContExpectations.ExpectDeletions
        ⟨fun _ => GetByKeyResult.absent, fun _ => none⟩ "k" ["a", "b"] 0).uidStore "other"
      = none :=
  (uidTracking_expectDeletions_dedups
      ⟨fun _ => GetByKeyResult.absent, fun _ => none⟩ "k" ["a", "b"] 0).2.2 "other" (by decide)

/-- Helper: every malformed reference is rejected by `validateControllerRef`. -/
theorem validateControllerRef_some_of_bad (ref : Option OwnerReference)
    (h : badControllerRef ref) : (validateControllerRef ref).isSome = true := by
  rcases h with rfl | ⟨r, rfl, hbad⟩
  · rfl
  · simp only [validateControllerRef]
    split_ifs with h1 h2 h3 h4
    any_goals rfl
    exfalso
    rcases hbad with h | h | h | h
    · exact h1 (by simp [h])
    · exact h2 (by simp [h])
    · rcases hc : r.Controller with _ | b
      · simp [boolPtrNotTrue, hc] at h3
      · cases b
        · simp [boolPtrNotTrue, hc] at h3
        · exact h (by rw [hc])
    · rcases hc : r.BlockOwnerDeletion with _ | b
      · simp [boolPtrNotTrue, hc] at h4
      · cases b
        · simp [boolPtrNotTrue, hc] at h4
        · exact h (by rw [hc])

/-- C5: for both the real and the fake machine control, a malformed owner
reference makes `CreateMachinesWithControllerRef` return the validation
error with zero remote calls and no events, and an empty materialized
label set makes `CreateMachines` return the local no-labels error with
zero remote calls. -/
theorem createMachines_validation_local (template : MachineTemplateSpec)
    (parentHasMeta : Bool) (ref : Option OwnerReference) (remote : Except String Unit) :
    (badControllerRef ref →
      (validateControllerRef ref).isSome = true ∧
      RealMachineControl.CreateMachinesWithControllerRef template parentHasMeta ref remote
        = ⟨validateControllerRef ref, 0, []⟩ ∧
      FakeMachineControl.CreateMachinesWithControllerRef template parentHasMeta ref remote
        = ⟨validateControllerRef ref, 0, []⟩) ∧
    (template.Labels = [] → parentHasMeta = true →
      RealMachineControl.CreateMachines template parentHasMeta remote
        = ⟨some "unable to create machines, no labels", 0, []⟩ ∧
      FakeMachineControl.CreateMachines template parentHasMeta remote
        = ⟨some "unable to create machines, no labels", 0, []⟩) := by
  constructor
  · intro hbad
    have hsome := validateControllerRef_some_of_bad ref hbad
    obtain ⟨msg, hmsg⟩ := Option.isSome_iff_exists.mp hsome
    refine ⟨hsome, ?_, ?_⟩
    · unfold RealMachineControl.CreateMachinesWithControllerRef
      rw [hmsg]
    · unfold FakeMachineControl.CreateMachinesWithControllerRef
      rw [hmsg]
  · intro hlab hmeta
    subst hmeta
    constructor
    · unfold RealMachineControl.CreateMachines RealMachineControl.createMachines
      simp [hlab]
    · unfold FakeMachineControl.CreateMachines FakeMachineControl.createMachines
      simp [hlab]

/-- C5 witness: a reference whose controller flag is nil is rejected with
zero remote calls, and an empty-label template fails locally with zero
remote calls, for the real control. -/
theorem createMachines_validation_local_witness :
    RealMachineControl.CreateMachinesWithControllerRef
        ⟨[("a", "b")], [], [], "c"⟩ true
        (some ⟨"v1", "MachineSet", none, some true⟩) (Except.ok ())
      = ⟨validateControllerRef (some ⟨"v1", "MachineSet", none, some true⟩), 0, []⟩ ∧
    RealMachineControl.CreateMachines ⟨[], [], [], "c"⟩ true (Except.ok ())
      = ⟨some "unable to create machines, no labels", 0, []⟩ :=
  ⟨((createMachines_validation_local ⟨[("a", "b")], [], [], "c"⟩ true
        (some ⟨"v1", "MachineSet", none, some true⟩) (Except.ok ())).1
      (Or.inr ⟨_, rfl, Or.inr (Or.inr (Or.inl (by decide)))⟩)).2.1,
   ((createMachines_validation_local ⟨[], [], [], "c"⟩ true none (Except.ok ())).2
      rfl rfl).1⟩

/-- C6 counterexample: `DeleteMachine` does not return the remote error
verbatim: on the remote error boom it returns the wrapped error
unable to delete machines: boom. -/
theorem deleteMachine_wraps_error_counterexample :
    (RealMachineControl.DeleteMachine true (Except.error "boom")).err
        = some ("unable to delete machines: " ++ "boom") ∧
    some ("unable to delete machines: " ++ "boom") ≠ some "boom" := by
  exact ⟨rfl, by decide⟩

/-- C6 (amended): remote create errors are propagated verbatim after the
FailedCreate warning, remote patch errors are returned verbatim with no
event, and remote delete errors are returned wrapped in the message
unable to delete machines after the FailedDelete warning, for both the
real and the fake machine control. -/
theorem remoteErrors_propagation (template : MachineTemplateSpec) (e : String)
    (hlab : template.Labels.isEmpty = false) :
    (RealMachineControl.CreateMachines template true (Except.error e)
        = ⟨some e, 1, [(EventTypeWarning, FailedCreateMachineReason)]⟩) ∧
    (FakeMachineControl.CreateMachines template true (Except.error e)
        = ⟨some e, 1, [(EventTypeWarning, FailedCreateMachineReason)]⟩) ∧
    (RealMachineControl.PatchMachine (Except.error e) = ⟨some e, 1, []⟩) ∧
    (FakeMachineControl.PatchMachine (Except.error e) = ⟨some e, 1, []⟩) ∧
    (RealMachineControl.DeleteMachine true (Except.error e)
        = ⟨some ("unable to delete machines: " ++ e), 1,
            [(EventTypeWarning, FailedDeleteMachineReason)]⟩) ∧
    (FakeMachineControl.DeleteMachine true (Except.error e)
        = ⟨some ("unable to delete machines: " ++ e), 1,
            [(EventTypeWarning, FailedDeleteMachineReason)]⟩) := by
  refine ⟨?_, ?_, rfl, rfl, rfl, rfl⟩
  · unfold RealMachineControl.CreateMachines RealMachineControl.createMachines
    simp [hlab]
  · unfold FakeMachineControl.CreateMachines FakeMachineControl.createMachines
    simp [hlab]

/-- C6 amended witness: concrete propagation for a labelled template and
the remote error boom. -/
theorem remoteErrors_propagation_witness :
    RealMachineControl.CreateMachines ⟨[("a", "b")], [], [], "c"⟩ true (Except.error "boom")
      = ⟨some "boom", 1, [(EventTypeWarning, FailedCreateMachineReason)]⟩ :=
  (remoteErrors_propagation ⟨[("a", "b")], [], [], "c"⟩ "boom" (by decide)).1

/-- Helper: on the listed phases the rank map of the code agrees with the
table of the claim. -/
theorem machinePhaseRank_eq_spec (phase : String) (h : listedPhase phase) :
    machinePhaseRank phase = specPhaseRank phase := by
  rcases h with rfl | rfl | rfl | rfl | rfl | rfl | rfl <;> decide

/-- C7: over machines whose phase is in the rank table, the comparator
orders by ascending annotation priority (default 3 when absent or
unparseable, as computed by `machinePriorityOf`), then ascending phase
rank, then ascending creation time, and reports machines equal on all
three as unordered. -/
theorem activeMachines_less_spec (a b : Machine)
    (ha : listedPhase a.Phase) (hb : listedPhase b.Phase) :
    (ActiveMachines.Less a b = true ↔
      (machinePriorityOf a < machinePriorityOf b ∨
        (machinePriorityOf a = machinePriorityOf b ∧
          (specPhaseRank a.Phase < specPhaseRank b.Phase ∨
            (specPhaseRank a.Phase = specPhaseRank b.Phase ∧
              a.CreationTimestamp < b.CreationTimestamp))))) ∧
    (machinePriorityOf a = machinePriorityOf b →
      specPhaseRank a.Phase = specPhaseRank b.Phase →
      a.CreationTimestamp = b.CreationTimestamp →
      ActiveMachines.Less a b = false) := by
  have hA := machinePhaseRank_eq_spec a.Phase ha
  have hB := machinePhaseRank_eq_spec b.Phase hb
  refine ⟨?_, ?_⟩
  · by_cases h1 : machinePriorityOf a = machinePriorityOf b <;>
      by_cases h2 : specPhaseRank a.Phase = specPhaseRank b.Phase <;>
        by_cases h3 : a.CreationTimestamp = b.CreationTimestamp <;>
          simp only [ActiveMachines.Less, hA, hB] <;>
            simp [h1, h2, h3]
  · intro e1 e2 e3
    simp [ActiveMachines.Less, hA, hB, e1, e2, e3]

/-- C7 witness: with equal priority 3, a terminating machine sorts before a
running one. -/
theorem activeMachines_less_spec_witness :
    ActiveMachines.Less ⟨"m1", some [(MachinePriority, "3")], MachineTerminating, 0⟩
        ⟨"m2", some [(MachinePriority, "3")], MachineRunning, 0⟩ = true :=
  ((activeMachines_less_spec
      ⟨"m1", some [(MachinePriority, "3")], MachineTerminating, 0⟩
      ⟨"m2", some [(MachinePriority, "3")], MachineRunning, 0⟩
      (Or.inl rfl) (Or.inr (Or.inr (Or.inr (Or.inr (Or.inr (Or.inr rfl))))))).1).mpr
    (Or.inr ⟨by decide, Or.inl (by decide)⟩)

/-- C8 counterexample: for a concrete template, the two distinct int32
collision counters -393751310 and -195808356 produce the same hash, so
changing the collision counter does not always change the resulting hash. -/
theorem computeHash_collision_counterexample :
    ComputeHash ⟨[("app", "test")], [], [], "small"⟩ (some (-393751310))
        = ComputeHash ⟨[("app", "test")], [], [], "small"⟩ (some (-195808356)) ∧
    (-393751310 : Int) ≠ -195808356 := by
  exact ⟨by decide, by decide⟩

/-- C8 (amended): `ComputeHash` is deterministic - templates whose
unordered collections are equal as maps (equal canonical forms, regardless
of insertion order) hash identically under equal collision counters - and
a supplied collision counter is mixed in by writing its fixed-width
little-endian encoding into the hash state; changing the counter usually
changes the hash but FNV-1a collisions between distinct counters exist. -/
theorem computeHash_deterministic_and_mixes (t1 t2 : MachineTemplateSpec) (c : Option Int)
    (hl : canonicalMap t1.Labels = canonicalMap t2.Labels)
    (hann : canonicalMap t1.Annotations = canonicalMap t2.Annotations)
    (hf : t1.Finalizers = t2.Finalizers) (hc : t1.Class = t2.Class) :
    ComputeHash t1 c = ComputeHash t2 c ∧
    (∀ t : MachineTemplateSpec, ∀ n : Int,
      ComputeHash t (some n) = fnvWrite (ComputeHash t none)
        (collisionCountBytes (uint32Cast n))) := by
  have hbytes : deepHashTemplateBytes t1 = deepHashTemplateBytes t2 := by
    unfold deepHashTemplateBytes mapBytes
    rw [hl, hann, hf, hc]
  refine ⟨?_, fun t n => rfl⟩
  unfold ComputeHash
  rw [hbytes]

/-- C8 witness: two templates with the same label map inserted in opposite
orders hash identically under the same collision counter. -/
theorem computeHash_deterministic_and_mixes_witness :
    ComputeHash ⟨[("a", "1"), ("b", "2")], [], [], "c"⟩ (some 5)
      = ComputeHash ⟨[("b", "2"), ("a", "1")], [], [], "c"⟩ (some 5) :=
  (computeHash_deterministic_and_mixes
      ⟨[("a", "1"), ("b", "2")], [], [], "c"⟩ ⟨[("b", "2"), ("a", "1")], [], [], "c"⟩
      (some 5) (by decide) rfl rfl rfl).1

/-- C9 counterexample: `AddOrUpdateAnnotationOnNode` with the empty node
key and a non-empty annotation map is not a no-op - it performs a remote
read (the cached get), contradicting the claim that an empty key performs
no remote read or write. -/
theorem addOrUpdate_emptyKey_counterexample :
    (AddOrUpdateAnnotationOnNode (fun _ => (NodeGetResult.notFound, NodeUpdateResult.ok)) ""
        (some [("a", "b")])).2 = [NodeCall.getCached ""] ∧
    ([NodeCall.getCached ""] : List NodeCall) ≠ [] := by
  exact ⟨rfl, by decide⟩

/-- C9 (amended): `RemoveAnnotationsOffNode` is a success no-op with no
remote calls when the annotation map is nil or the node key is empty;
`AddOrUpdateAnnotationOnNode` is such a no-op only when the annotation map
is nil (an empty node key does not short-circuit it). -/
theorem annotationUpdaters_noop_conditions
    (oracle : Nat → NodeGetResult × NodeUpdateResult) (nodeName : String)
    (ann : Option (List (String × String))) :
    AddOrUpdateAnnotationOnNode oracle nodeName none = (none, []) ∧
    (ann = none ∨ nodeName = "" →
      RemoveAnnotationsOffNode oracle nodeName ann = (none, [])) := by
  refine ⟨rfl, ?_⟩
  rintro (rfl | rfl)
  · rfl
  · unfold RemoveAnnotationsOffNode
    cases ann <;> simp

/-- C9 amended witness: removing with an empty node key and a non-empty
map is a success no-op with no remote calls. -/
theorem annotationUpdaters_noop_conditions_witness :
    RemoveAnnotationsOffNode (fun _ => (NodeGetResult.notFound, NodeUpdateResult.ok)) ""
        (some [("a", "b")]) = (none, []) :=
  (annotationUpdaters_noop_conditions (fun _ => (NodeGetResult.notFound, NodeUpdateResult.ok))
      "" (some [("a", "b")])).2 (Or.inr rfl)
